import Mathlib

/-!
Verification of the geometric-projection and instance-decoding core of the
autonomous_driver repository (src/autonomous_driver/util.py).

The pure numeric code is embedded over an arbitrary linear ordered field
with a floor structure, so that every definition can be evaluated at
concrete rational inputs; the intrinsics builder and the top-level 3D box
projector, which involve the tangent function and pi, are stated over the
real numbers.  External simulator types (carla.Transform, carla.Rotation,
carla.BoundingBox) are modelled as snapshot records: an orientation carries
the 3x3 rotation matrix the simulator would derive from its Euler angles,
and the rigid-transform operations (transform of a point, inverse
transform, forward vector, inverse 4x4 matrix) are the standard formulas
the simulator API implements.
-/

section Scalars

variable {F : Type} [LinearOrderedField F]

/-- A 3-component vector, standing in for carla.Location / carla.Vector3D
and for numpy length-3 arrays. -/
structure V3 (F : Type) where
  x : F
  y : F
  z : F
  deriving DecidableEq

instance : Add (V3 F) := ⟨fun a b => ⟨a.x + b.x, a.y + b.y, a.z + b.z⟩⟩

instance : Sub (V3 F) := ⟨fun a b => ⟨a.x - b.x, a.y - b.y, a.z - b.z⟩⟩

/-- Dot product of two 3-vectors (carla.Vector3D.dot). -/
def V3.dot (a b : V3 F) : F :=
  a.x * b.x + a.y * b.y + a.z * b.z

/-- A 3x3 matrix with explicitly named entries, standing in for a numpy
3x3 array. -/
structure M33 (F : Type) where
  m00 : F
  m01 : F
  m02 : F
  m10 : F
  m11 : F
  m12 : F
  m20 : F
  m21 : F
  m22 : F
  deriving DecidableEq

/-- Matrix-vector product for the 3x3 case. -/
def M33.mulV3 (K : M33 F) (v : V3 F) : V3 F :=
  ⟨K.m00 * v.x + K.m01 * v.y + K.m02 * v.z,
   K.m10 * v.x + K.m11 * v.y + K.m12 * v.z,
   K.m20 * v.x + K.m21 * v.y + K.m22 * v.z⟩

/-- A 4x4 matrix with explicitly named entries, standing in for a numpy
4x4 array (the world-to-camera matrix). -/
structure M44 (F : Type) where
  m00 : F
  m01 : F
  m02 : F
  m03 : F
  m10 : F
  m11 : F
  m12 : F
  m13 : F
  m20 : F
  m21 : F
  m22 : F
  m23 : F
  m30 : F
  m31 : F
  m32 : F
  m33 : F
  deriving DecidableEq

/-- Truncation toward zero, the behaviour of the Python builtin int() on a
float value. -/
def pyInt [FloorRing F] (a : F) : ℤ :=
  if 0 ≤ a then ⌊a⌋ else ⌈a⌉

/-- Embedding of util.get_image_point: homogenize the input point, multiply
by the 4x4 world-to-camera matrix, remap axes (x, y, z) to (y, -z, x)
dropping the fourth component, multiply by the 3x3 intrinsics matrix and
perform the perspective divide. -/
def get_image_point (loc : V3 F) (K : M33 F) (w2c : M44 F) : F × F :=
  let pcx := w2c.m00 * loc.x + w2c.m01 * loc.y + w2c.m02 * loc.z + w2c.m03 * 1
  let pcy := w2c.m10 * loc.x + w2c.m11 * loc.y + w2c.m12 * loc.z + w2c.m13 * 1
  let pcz := w2c.m20 * loc.x + w2c.m21 * loc.y + w2c.m22 * loc.z + w2c.m23 * 1
  let cx := pcy
  let cy := -pcz
  let cz := pcx
  let u := K.m00 * cx + K.m01 * cy + K.m02 * cz
  let v := K.m10 * cx + K.m11 * cy + K.m12 * cz
  let s := K.m20 * cx + K.m21 * cy + K.m22 * cz
  (u / s, v / s)

/-- Embedding of util.point_in_canvas: true iff the first coordinate lies
in the half-open interval from 0 to the image width and the second in the
half-open interval from 0 to the image height. -/
def point_in_canvas (pos : F × F) (img_h img_w : F) : Bool :=
  if pos.1 ≥ 0 ∧ pos.1 < img_w ∧ pos.2 ≥ 0 ∧ pos.2 < img_h then true else false

/-- Written from the wording of the spec (section 4.2): camera-space
coordinates of a world point, obtained by appending 1 and multiplying by
the world-to-camera matrix, keeping the first three components. -/
def spec_camera_coords (p : V3 F) (w2c : M44 F) : V3 F :=
  ⟨w2c.m00 * p.x + w2c.m01 * p.y + w2c.m02 * p.z + w2c.m03,
   w2c.m10 * p.x + w2c.m11 * p.y + w2c.m12 * p.z + w2c.m13,
   w2c.m20 * p.x + w2c.m21 * p.y + w2c.m22 * p.z + w2c.m23⟩

/-- Written from the wording of the spec (section 4.2 and the design
note): the engine axis remap sending (x, y, z) to (y, -z, x). -/
def spec_axis_remap (c : V3 F) : V3 F :=
  ⟨c.y, -c.z, c.x⟩

/-- Written from the wording of the spec (section 4.2): the world-to-image
projector as the spec describes it, composed from camera-coordinate
computation, axis remap, intrinsics multiplication and perspective
divide. -/
def spec_world_to_image (p : V3 F) (K : M33 F) (w2c : M44 F) : F × F :=
  let uvs := K.mulV3 (spec_axis_remap (spec_camera_coords p w2c))
  (uvs.x / uvs.z, uvs.y / uvs.z)

end Scalars

section Simulator

variable {F : Type} [LinearOrderedField F]

/-- Model of the simulator API type carla.Rotation: Euler angles in
degrees. -/
structure Rotation (F : Type) where
  pitch : F
  yaw : F
  roll : F
  deriving DecidableEq

/-- Model of the simulator API type carla.Transform: a world location and
an orientation.  The orientation is carried both as its Euler angles and
as the 3x3 rotation matrix the simulator derives from them (the basis
field); the core under verification only reads these snapshots and never
recomputes one from the other. -/
structure Transform (F : Type) where
  location : V3 F
  rotation : Rotation F
  basis : M33 F
  deriving DecidableEq

/-- Model of carla.Transform.transform applied to a point: rotate by the
orientation matrix and translate by the location. -/
def Transform.transform_point (t : Transform F) (p : V3 F) : V3 F :=
  t.basis.mulV3 p + t.location

/-- Model of carla.Transform.inverse_transform applied to a point: apply
the inverse rigid transform, which for an orthonormal basis is the
transposed matrix applied to the translated point. -/
def Transform.inverse_transform (t : Transform F) (p : V3 F) : V3 F :=
  ⟨(p - t.location).x * t.basis.m00 + (p - t.location).y * t.basis.m10 +
     (p - t.location).z * t.basis.m20,
   (p - t.location).x * t.basis.m01 + (p - t.location).y * t.basis.m11 +
     (p - t.location).z * t.basis.m21,
   (p - t.location).x * t.basis.m02 + (p - t.location).y * t.basis.m12 +
     (p - t.location).z * t.basis.m22⟩

/-- Model of carla.Transform.get_forward_vector: the unit vector the
orientation maps the x axis to, i.e. the first column of the rotation
matrix. -/
def Transform.get_forward_vector (t : Transform F) : V3 F :=
  ⟨t.basis.m00, t.basis.m10, t.basis.m20⟩

/-- Model of carla.Transform.get_inverse_matrix: the 4x4 matrix of the
inverse rigid transform, with the transposed rotation matrix in the upper
left block and the negated rotated location in the last column. -/
def Transform.get_inverse_matrix (t : Transform F) : M44 F :=
  { m00 := t.basis.m00, m01 := t.basis.m10, m02 := t.basis.m20,
    m03 := -(t.basis.m00 * t.location.x + t.basis.m10 * t.location.y +
             t.basis.m20 * t.location.z),
    m10 := t.basis.m01, m11 := t.basis.m11, m12 := t.basis.m21,
    m13 := -(t.basis.m01 * t.location.x + t.basis.m11 * t.location.y +
             t.basis.m21 * t.location.z),
    m20 := t.basis.m02, m21 := t.basis.m12, m22 := t.basis.m22,
    m23 := -(t.basis.m02 * t.location.x + t.basis.m12 * t.location.y +
             t.basis.m22 * t.location.z),
    m30 := 0, m31 := 0, m32 := 0, m33 := 1 }

/-- Model of the simulator API type carla.BoundingBox: a local-space
center offset and a local-space half-extent. -/
structure BBox (F : Type) where
  location : V3 F
  extent : V3 F
  deriving DecidableEq

/-- The eight local-space corner vertices of a bounding volume, in the
order the simulator enumerates them: all sign combinations of the extent
around the local center, with the x sign varying slowest and the z sign
fastest. -/
def BBox.local_vertex (bb : BBox F) (i : Fin 8) : V3 F :=
  match i with
  | ⟨0, _⟩ => bb.location + ⟨-bb.extent.x, -bb.extent.y, -bb.extent.z⟩
  | ⟨1, _⟩ => bb.location + ⟨-bb.extent.x, -bb.extent.y, bb.extent.z⟩
  | ⟨2, _⟩ => bb.location + ⟨-bb.extent.x, bb.extent.y, -bb.extent.z⟩
  | ⟨3, _⟩ => bb.location + ⟨-bb.extent.x, bb.extent.y, bb.extent.z⟩
  | ⟨4, _⟩ => bb.location + ⟨bb.extent.x, -bb.extent.y, -bb.extent.z⟩
  | ⟨5, _⟩ => bb.location + ⟨bb.extent.x, -bb.extent.y, bb.extent.z⟩
  | ⟨6, _⟩ => bb.location + ⟨bb.extent.x, bb.extent.y, -bb.extent.z⟩
  | ⟨7, _⟩ => bb.location + ⟨bb.extent.x, bb.extent.y, bb.extent.z⟩

/-- Model of carla.BoundingBox.get_world_vertices: the eight corner
vertices carried to world space by the transform of the owning actor. -/
def BBox.get_world_vertices (bb : BBox F) (t : Transform F) :
    Fin 8 → V3 F :=
  fun i => t.transform_point (bb.local_vertex i)

end Simulator

section Segmentation

/-- One 4-channel pixel of the raw instance-segmentation buffer.  The
simulator delivers the raw data in BGRA channel order, so channel index 0
is B, index 1 is G, index 2 is R and index 3 is A; each channel is an
unsigned byte. -/
structure Pixel where
  b : Fin 256
  g : Fin 256
  r : Fin 256
  a : Fin 256
  deriving DecidableEq

/-- The 16-bit actor id packed into one pixel, as computed by
util.decode_instance_segmentation: the G channel widened to 16 bits plus
the B channel widened to 16 bits and shifted left by 8.  For byte-valued
channels the 16-bit sum cannot wrap, so plain natural arithmetic is
exact. -/
def Pixel.actorId (px : Pixel) : ℕ :=
  px.g.val + (px.b.val <<< 8)

/-- Embedding of util.decode_instance_segmentation: from the raw BGRA
buffer, the grid of semantic labels (channel index 2, the R channel) and
the grid of packed 16-bit actor ids. -/
def decode_instance_segmentation (img_rgba : List (List Pixel)) :
    List (List ℕ) × List (List ℕ) :=
  (img_rgba.map (fun row => row.map (fun px => px.r.val)),
   img_rgba.map (fun row => row.map Pixel.actorId))

/-- Row-major list of the (row, column) coordinates whose entry equals the
target id: the embedding of the boolean mask (actor_ids == actor.id)
together with numpy.where, which scans the mask in row-major order. -/
def np_where (ids : List (List ℕ)) (target : ℕ) : List (ℕ × ℕ) :=
  (ids.enum.map (fun yrow =>
    (yrow.2.enum.filterMap (fun xv =>
      if xv.2 = target then some (yrow.1, xv.1) else none)))).flatten

/-- The per-actor state the 2D and 3D box generators read: the unique
actor id, the semantic tag list, the current world transform and the
bounding volume. -/
structure ActorState (F : Type) where
  id : ℕ
  semantic_tags : List ℕ
  transform : Transform F
  bounding_box : BBox F

/-- Result record of util.bbox_2d_for_actor. -/
structure Box2D where
  actor_id : ℕ
  semantic_label : ℕ
  bbox_2d : ℕ × ℕ × ℕ × ℕ
  deriving DecidableEq

/-- Embedding of util.bbox_2d_for_actor: if no grid entry equals the actor
id the result is none; otherwise the minima and maxima of the matching
columns and rows form the box, and the reported semantic label is the
first entry of the semantic tag list of the actor itself (the semantic_labels
argument is not read). -/
def bbox_2d_for_actor {F : Type} (actor : ActorState F)
    (actor_ids : List (List ℕ)) (semantic_labels : List (List ℕ)) :
    Option Box2D :=
  match np_where actor_ids actor.id with
  | [] => none
  | c :: cs =>
    let ys := (c :: cs).map Prod.fst
    let xs := (c :: cs).map Prod.snd
    some { actor_id := actor.id,
           semantic_label := actor.semantic_tags.headD 0,
           bbox_2d := (xs.foldl min c.2, ys.foldl min c.1,
                       xs.foldl max c.2, ys.foldl max c.1) }

end Segmentation

section Projector3D

variable {F : Type} [LinearOrderedField F]

/-- Embedding of util.EDGES, the fixed bounding-box edge topology: twelve
index pairs over the eight corner vertices. -/
def EDGES : List (Fin 8 × Fin 8) :=
  [(0, 1), (1, 3), (3, 2), (2, 0), (0, 4), (4, 5),
   (5, 1), (5, 7), (7, 6), (6, 4), (6, 2), (7, 3)]

/-- The body of the per-edge loop of util.bbox_3d_for_actor: project both
endpoints with the normal intrinsics; if neither projection passes the
canvas test the edge is dropped; otherwise each endpoint whose
camera-forward dot product is not positive is re-projected with the
mirrored intrinsics, and the integer-truncated segment is produced. -/
def edge_segment [FloorRing F] (K K_b : M33 F) (w2c : M44 F)
    (cam_forward_vec cam_loc : V3 F) (verts : Fin 8 → V3 F)
    (image_w image_h : F) (edge : Fin 8 × Fin 8) :
    Option (ℤ × ℤ × ℤ × ℤ) :=
  let p1 := get_image_point (verts edge.1) K w2c
  let p2 := get_image_point (verts edge.2) K w2c
  let p1_in_canvas := point_in_canvas p1 image_h image_w
  let p2_in_canvas := point_in_canvas p2 image_h image_w
  if !p1_in_canvas && !p2_in_canvas then
    none
  else
    let ray0 := verts edge.1 - cam_loc
    let ray1 := verts edge.2 - cam_loc
    let q1 := if ¬ (cam_forward_vec.dot ray0 > 0) then
                get_image_point (verts edge.1) K_b w2c
              else p1
    let q2 := if ¬ (cam_forward_vec.dot ray1 > 0) then
                get_image_point (verts edge.2) K_b w2c
              else p2
    some (pyInt q1.1, pyInt q1.2, pyInt q2.1, pyInt q2.2)

/-- Written from the wording of the spec (design note on the behind-camera
correction): a stateless helper choosing the intrinsics for one vertex;
the mirrored intrinsics when the dot product of the camera forward vector
with the camera-to-vertex vector is at most zero, the normal intrinsics
otherwise. -/
def spec_choose_intrinsics (K K_b : M33 F)
    (vertex cam_forward_vec cam_loc : V3 F) : M33 F :=
  if cam_forward_vec.dot (vertex - cam_loc) ≤ 0 then K_b else K

/-- Written from the wording of the spec (section 4.5 step 5): for one
edge, project both endpoints with the normal intrinsics; if neither lands
in the canvas, discard the edge; otherwise emit the segment whose
endpoints are each projected with the per-vertex chosen intrinsics. -/
def spec_edge_segment [FloorRing F] (K K_b : M33 F) (w2c : M44 F)
    (cam_forward_vec cam_loc : V3 F) (verts : Fin 8 → V3 F)
    (image_w image_h : F) (edge : Fin 8 × Fin 8) :
    Option (ℤ × ℤ × ℤ × ℤ) :=
  let n1 := get_image_point (verts edge.1) K w2c
  let n2 := get_image_point (verts edge.2) K w2c
  if ¬ point_in_canvas n1 image_h image_w ∧
     ¬ point_in_canvas n2 image_h image_w then
    none
  else
    let q1 := get_image_point (verts edge.1)
      (spec_choose_intrinsics K K_b (verts edge.1) cam_forward_vec cam_loc) w2c
    let q2 := get_image_point (verts edge.2)
      (spec_choose_intrinsics K K_b (verts edge.2) cam_forward_vec cam_loc) w2c
    some (pyInt q1.1, pyInt q1.2, pyInt q2.1, pyInt q2.2)

end Projector3D

/-- Embedding of util.build_projection_matrix: the pinhole intrinsics
matrix with focal length w divided by twice the tangent of half the field
of view (in degrees), negated when the mirrored variant is requested, and
the principal point at the image center.  The function performs no
validation of its inputs. -/
noncomputable def build_projection_matrix (w h fov : ℝ)
    (is_behind_camera : Bool) : M33 ℝ :=
  let focal := w / (2 * Real.tan (fov * Real.pi / 360))
  { m00 := if is_behind_camera then -focal else focal,
    m01 := 0, m02 := w / 2,
    m10 := 0,
    m11 := if is_behind_camera then -focal else focal,
    m12 := h / 2,
    m20 := 0, m21 := 0, m22 := 1 }

/-- Degrees to radians, the Python math.radians function. -/
noncomputable def radians (d : ℝ) : ℝ :=
  d * Real.pi / 180

/-- The camera blueprint attributes util.bbox_3d_for_actor reads: image
width and height as integers and the field of view. -/
structure CameraBlueprint where
  image_size_x : ℕ
  image_size_y : ℕ
  fov : ℝ

/-- Result record of util.bbox_3d_for_actor: identity, ego-relative
center, doubled extents, relative yaw in radians and the surviving
projected edge segments. -/
structure Box3D where
  actor_id : ℕ
  semantic_label : ℕ
  center : V3 ℝ
  length : ℝ
  width : ℝ
  height : ℝ
  rotation_yaw : ℝ
  projection : List (ℤ × ℤ × ℤ × ℤ)

/-- Embedding of util.bbox_3d_for_actor: build the normal and mirrored
intrinsics from the camera blueprint, express the target bounding-volume
anchor in the frame anchored at the ego transform location plus the ego
volume offset with the ego orientation, enumerate the eight
world-space corner vertices, run the per-edge projection loop, and
assemble the result record. -/
noncomputable def bbox_3d_for_actor (actor ego : ActorState ℝ)
    (camera_bp : CameraBlueprint) (camera : Transform ℝ) : Box3D :=
  let world_2_camera := camera.get_inverse_matrix
  let image_w := (camera_bp.image_size_x : ℝ)
  let image_h := (camera_bp.image_size_y : ℝ)
  let fov := camera_bp.fov
  let K := build_projection_matrix image_w image_h fov false
  let K_b := build_projection_matrix image_w image_h fov true
  let ego_bbox_loc := ego.transform.location + ego.bounding_box.location
  let ego_bbox_transform : Transform ℝ :=
    ⟨ego_bbox_loc, ego.transform.rotation, ego.transform.basis⟩
  let npc_bbox_loc := actor.transform.location + actor.bounding_box.location
  let npc_loc_ego_space := ego_bbox_transform.inverse_transform npc_bbox_loc
  let verts := actor.bounding_box.get_world_vertices actor.transform
  { actor_id := actor.id,
    semantic_label := actor.semantic_tags.headD 0,
    center := npc_loc_ego_space,
    length := actor.bounding_box.extent.x * 2,
    width := actor.bounding_box.extent.y * 2,
    height := actor.bounding_box.extent.z * 2,
    rotation_yaw :=
      radians (actor.transform.rotation.yaw - ego.transform.rotation.yaw),
    projection := EDGES.filterMap
      (edge_segment K K_b world_2_camera camera.get_forward_vector
        camera.location verts image_w image_h) }

/-- C1: for every world point, intrinsics matrix and world-to-camera 4x4
matrix, get_image_point computes exactly the composition the spec
describes: homogenize, multiply by the world-to-camera matrix, remap axes
as (x, y, z) to (y, -z, x), multiply by the intrinsics and divide the
first two components by the third. -/
theorem C1_get_image_point_matches_spec {F : Type} [LinearOrderedField F]
    (p : V3 F) (K : M33 F) (w2c : M44 F) :
    get_image_point p K w2c = spec_world_to_image p K w2c := by
  simp only [get_image_point, spec_world_to_image, spec_axis_remap,
    spec_camera_coords, M33.mulV3, mul_one]

/-- The per-edge loop body of the code agrees with the per-edge rule the
spec states, for every choice of intrinsics, camera data and vertices. -/
lemma edge_segment_eq_spec {F : Type} [LinearOrderedField F] [FloorRing F]
    (K K_b : M33 F) (w2c : M44 F) (fwd loc : V3 F) (verts : Fin 8 → V3 F)
    (w h : F) (e : Fin 8 × Fin 8) :
    edge_segment K K_b w2c fwd loc verts w h e =
      spec_edge_segment K K_b w2c fwd loc verts w h e := by
  dsimp only [edge_segment, spec_edge_segment, spec_choose_intrinsics]
  rcases Bool.eq_false_or_eq_true
      (point_in_canvas (get_image_point (verts e.1) K w2c) h w) with h1 | h1 <;>
    rcases Bool.eq_false_or_eq_true
      (point_in_canvas (get_image_point (verts e.2) K w2c) h w) with h2 | h2 <;>
    by_cases h3 : fwd.dot (verts e.1 - loc) ≤ 0 <;>
    by_cases h4 : fwd.dot (verts e.2 - loc) ≤ 0 <;>
    simp [h1, h2, h3, h4, not_lt, not_le]

/-- C2: for every actor, ego, camera blueprint and camera pose, the edge
list bbox_3d_for_actor emits is exactly the per-edge rule of the spec mapped
over the fixed 12-entry edge topology: both endpoints projected with the
normal intrinsics, edges whose two naive projections both miss the canvas
discarded, and each endpoint whose camera-forward dot product is at most
zero re-projected with the mirrored intrinsics while the other endpoint
keeps its normal projection. -/
theorem C2_projection_follows_spec_edge_rule (actor ego : ActorState ℝ)
    (camera_bp : CameraBlueprint) (camera : Transform ℝ) :
    (bbox_3d_for_actor actor ego camera_bp camera).projection =
      EDGES.filterMap
        (spec_edge_segment
          (build_projection_matrix (camera_bp.image_size_x : ℝ)
            (camera_bp.image_size_y : ℝ) camera_bp.fov false)
          (build_projection_matrix (camera_bp.image_size_x : ℝ)
            (camera_bp.image_size_y : ℝ) camera_bp.fov true)
          camera.get_inverse_matrix camera.get_forward_vector
          camera.location
          (actor.bounding_box.get_world_vertices actor.transform)
          (camera_bp.image_size_x : ℝ) (camera_bp.image_size_y : ℝ)) ∧
    EDGES.length = 12 := by
  constructor
  · dsimp only [bbox_3d_for_actor]
    congr 1
    funext e
    exact edge_segment_eq_spec _ _ _ _ _ _ _ _ e
  · rfl

/-- C7: for valid inputs, the intrinsics builder returns the pinhole
matrix with the focal term (negated when mirrored) on the diagonal, the
principal point at half the image size, one in the lower right corner and
zeros elsewhere; the mirrored and normal matrices differ only in the sign
of the focal entries. -/
theorem C7_intrinsics_entries (w h : ℕ) (fov : ℝ) (mirrored : Bool)
    (hw : 0 < w) (hh : 0 < h) (hfov0 : 0 < fov) (hfov1 : fov < 180) :
    build_projection_matrix (w : ℝ) (h : ℝ) fov mirrored =
      { m00 := if mirrored then
                 -((w : ℝ) / (2 * Real.tan (fov * Real.pi / 360)))
               else (w : ℝ) / (2 * Real.tan (fov * Real.pi / 360)),
        m01 := 0, m02 := (w : ℝ) / 2,
        m10 := 0,
        m11 := if mirrored then
                 -((w : ℝ) / (2 * Real.tan (fov * Real.pi / 360)))
               else (w : ℝ) / (2 * Real.tan (fov * Real.pi / 360)),
        m12 := (h : ℝ) / 2,
        m20 := 0, m21 := 0, m22 := 1 } ∧
    (build_projection_matrix (w : ℝ) (h : ℝ) fov true).m00 =
      -((build_projection_matrix (w : ℝ) (h : ℝ) fov false).m00) ∧
    (build_projection_matrix (w : ℝ) (h : ℝ) fov true).m11 =
      -((build_projection_matrix (w : ℝ) (h : ℝ) fov false).m11) ∧
    (build_projection_matrix (w : ℝ) (h : ℝ) fov true).m00 =
      (build_projection_matrix (w : ℝ) (h : ℝ) fov true).m11 ∧
    (build_projection_matrix (w : ℝ) (h : ℝ) fov false).m00 =
      (build_projection_matrix (w : ℝ) (h : ℝ) fov false).m11 ∧
    (∀ mirr : Bool,
      (build_projection_matrix (w : ℝ) (h : ℝ) fov mirr).m01 = 0 ∧
      (build_projection_matrix (w : ℝ) (h : ℝ) fov mirr).m02 = (w : ℝ) / 2 ∧
      (build_projection_matrix (w : ℝ) (h : ℝ) fov mirr).m10 = 0 ∧
      (build_projection_matrix (w : ℝ) (h : ℝ) fov mirr).m12 = (h : ℝ) / 2 ∧
      (build_projection_matrix (w : ℝ) (h : ℝ) fov mirr).m20 = 0 ∧
      (build_projection_matrix (w : ℝ) (h : ℝ) fov mirr).m21 = 0 ∧
      (build_projection_matrix (w : ℝ) (h : ℝ) fov mirr).m22 = 1) := by
  refine ⟨?_, by simp [build_projection_matrix], by simp [build_projection_matrix],
    by simp [build_projection_matrix], by simp [build_projection_matrix],
    fun mirr => by cases mirr <;> simp [build_projection_matrix]⟩
  cases mirrored <;> simp [build_projection_matrix]

/-- Witness for C7 at width 800, height 600, field of view 90 degrees,
mirrored variant: the hypotheses hold and the principal point is at
(400, 300). -/
theorem C7_witness :
    0 < 800 ∧ 0 < 600 ∧ (0 : ℝ) < 90 ∧ (90 : ℝ) < 180 ∧
    (build_projection_matrix ((800 : ℕ) : ℝ) ((600 : ℕ) : ℝ) 90 true).m02 = 400 ∧
    (build_projection_matrix ((800 : ℕ) : ℝ) ((600 : ℕ) : ℝ) 90 true).m12 = 300 := by
  refine ⟨by norm_num, by norm_num, by norm_num, by norm_num, ?_, ?_⟩
  · have hc := C7_intrinsics_entries 800 600 90 true
      (by norm_num) (by norm_num) (by norm_num) (by norm_num)
    rw [hc.1]
    norm_num
  · have hc := C7_intrinsics_entries 800 600 90 true
      (by norm_num) (by norm_num) (by norm_num) (by norm_num)
    rw [hc.1]
    norm_num

/-- Counterexample to C8: at the malformed field of view 0 the builder
does not fail: it returns a well-typed matrix whose focal entries are the
result of the division by tan 0 = 0 (zero in the real-number model,
non-finite in the floating-point program), with the principal point still
filled in. -/
theorem C8_counterexample :
    build_projection_matrix 800 600 0 false =
      { m00 := 0, m01 := 0, m02 := 400, m10 := 0, m11 := 0, m12 := 300,
        m20 := 0, m21 := 0, m22 := 1 } := by
  unfold build_projection_matrix
  norm_num [Real.tan_zero]

/-- C8 amended: the intrinsics builder performs no validation of its
inputs; for the malformed field of view 0 it still totally returns a
matrix built by the same formula, whose focal entries are degenerate
(division by zero) and whose remaining entries are filled in as usual,
instead of failing fast with an error. -/
theorem C8_no_validation_total_result (w h : ℝ) (mirrored : Bool) :
    (build_projection_matrix w h 0 mirrored).m00 = 0 ∧
    (build_projection_matrix w h 0 mirrored).m11 = 0 ∧
    (build_projection_matrix w h 0 mirrored).m02 = w / 2 ∧
    (build_projection_matrix w h 0 mirrored).m12 = h / 2 ∧
    (build_projection_matrix w h 0 mirrored).m22 = 1 := by
  cases mirrored <;> norm_num [build_projection_matrix, Real.tan_zero]

/-- C9: decoding a pixel yields the packed id made of the G channel plus
the B channel shifted left by 8 bits, and the original byte pair is
uniquely recoverable from the packed id by taking the remainder and the
quotient by 256, so decoding followed by re-encoding is the identity on
the two id channels. -/
theorem C9_packed_id_round_trip (px : Pixel) :
    (decode_instance_segmentation [[px]]).2 =
      [[px.g.val + (px.b.val <<< 8)]] ∧
    Pixel.actorId px % 2 ^ 8 = px.g.val ∧
    Pixel.actorId px / 2 ^ 8 = px.b.val := by
  refine ⟨rfl, ?_, ?_⟩ <;>
    · have hg := px.g.isLt
      have hb := px.b.isLt
      simp only [Pixel.actorId, Nat.shiftLeft_eq]
      omega

/-- Reading from a mapped list at an in-bounds index gives the function
applied to the original entry. -/
lemma getD_map_of_lt {α β : Type} (l : List α) (f : α → β) (i : ℕ)
    (hi : i < l.length) (d : α) (d2 : β) :
    (l.map f).getD i d2 = f (l.getD i d) := by
  rw [List.getD_eq_getElem?_getD, List.getD_eq_getElem?_getD,
    List.getElem?_map, List.getElem?_eq_getElem hi]
  rfl

/-- C3: the instance-segmentation decoder is total on well-formed buffers
and returns two grids of the same shape as the buffer, with the semantic
grid holding the R channel of each pixel and the id grid holding the
G channel plus its B channel shifted left by 8 bits. -/
theorem C3_decoder_shape_and_values (img_rgba : List (List Pixel))
    (hne : 0 < img_rgba.length) (y x : ℕ) (hy : y < img_rgba.length)
    (hx : x < (img_rgba.getD y []).length) :
    (decode_instance_segmentation img_rgba).1.length = img_rgba.length ∧
    (decode_instance_segmentation img_rgba).2.length = img_rgba.length ∧
    ((decode_instance_segmentation img_rgba).1.getD y []).length =
      (img_rgba.getD y []).length ∧
    ((decode_instance_segmentation img_rgba).2.getD y []).length =
      (img_rgba.getD y []).length ∧
    ((decode_instance_segmentation img_rgba).1.getD y []).getD x 0 =
      ((img_rgba.getD y []).getD x ⟨0, 0, 0, 0⟩).r.val ∧
    ((decode_instance_segmentation img_rgba).2.getD y []).getD x 0 =
      ((img_rgba.getD y []).getD x ⟨0, 0, 0, 0⟩).g.val +
        (((img_rgba.getD y []).getD x ⟨0, 0, 0, 0⟩).b.val <<< 8) := by
  unfold decode_instance_segmentation
  refine ⟨by simp, by simp, ?_, ?_, ?_, ?_⟩
  · rw [getD_map_of_lt img_rgba _ y hy []]
    simp
  · rw [getD_map_of_lt img_rgba _ y hy []]
    simp
  · rw [getD_map_of_lt img_rgba _ y hy [],
      getD_map_of_lt (img_rgba.getD y []) _ x hx ⟨0, 0, 0, 0⟩]
  · rw [getD_map_of_lt img_rgba _ y hy [],
      getD_map_of_lt (img_rgba.getD y []) _ x hx ⟨0, 0, 0, 0⟩]
    rfl

/-- Witness for C3 on a one-pixel buffer with channel values
B = 1, G = 2, R = 3, A = 4. -/
theorem C3_witness :
    0 < ([[(⟨1, 2, 3, 4⟩ : Pixel)]] : List (List Pixel)).length ∧
    ((decode_instance_segmentation [[⟨1, 2, 3, 4⟩]]).1.getD 0 []).getD 0 0
      = 3 ∧
    ((decode_instance_segmentation [[⟨1, 2, 3, 4⟩]]).2.getD 0 []).getD 0 0
      = 2 + (1 <<< 8) := by
  have h := C3_decoder_shape_and_values [[⟨1, 2, 3, 4⟩]] (by decide) 0 0
    (by decide) (by decide)
  exact ⟨by decide, h.2.2.2.2.1.trans (by decide), h.2.2.2.2.2.trans (by decide)⟩

/-- Characterization of membership in the row-major match list: a
coordinate pair is listed exactly when the grid holds the target id
there. -/
lemma mem_np_where {ids : List (List ℕ)} {t y x : ℕ} :
    (y, x) ∈ np_where ids t ↔
      ∃ row, ids[y]? = some row ∧ row[x]? = some t := by
  unfold np_where
  simp only [List.mem_flatten, List.mem_map, List.mem_enum_iff_getElem?]
  constructor
  · rintro ⟨l, ⟨⟨y1, row⟩, hrow, rfl⟩, hmem⟩
    simp only [List.mem_filterMap, List.mem_enum_iff_getElem?] at hmem
    rcases hmem with ⟨⟨x1, v⟩, hxv, hsome⟩
    by_cases hv : v = t
    · subst hv
      simp only [if_pos rfl, Option.some.injEq, Prod.mk.injEq] at hsome
      rcases hsome with ⟨rfl, rfl⟩
      exact ⟨row, hrow, hxv⟩
    · simp [hv] at hsome
  · rintro ⟨row, hrow, hx⟩
    refine ⟨_, ⟨⟨y, row⟩, hrow, rfl⟩, ?_⟩
    simp only [List.mem_filterMap, List.mem_enum_iff_getElem?]
    exact ⟨(x, t), hx, by simp⟩

/-- A left fold with min is bounded by its initial value. -/
lemma foldl_min_le_init (l : List ℕ) (a : ℕ) : l.foldl min a ≤ a := by
  induction l generalizing a with
  | nil => simp
  | cons b l ih =>
    simpa using le_trans (ih (min a b)) (min_le_left a b)

/-- A left fold with min is bounded by every list element. -/
lemma foldl_min_le_mem (l : List ℕ) :
    ∀ a b : ℕ, b ∈ l → l.foldl min a ≤ b := by
  induction l with
  | nil => intro a b hb; cases hb
  | cons c l ih =>
    intro a b hb
    rcases List.mem_cons.mp hb with rfl | hb1
    · exact le_trans (foldl_min_le_init l (min a b)) (min_le_right a b)
    · exact ih (min a c) b hb1

/-- A left fold with min is the initial value or a list element. -/
lemma foldl_min_mem (l : List ℕ) : ∀ a : ℕ, l.foldl min a ∈ a :: l := by
  induction l with
  | nil => intro a; simp
  | cons c l ih =>
    intro a
    have h := ih (min a c)
    rcases List.mem_cons.mp h with h1 | h1
    · rcases min_choice a c with hm | hm <;>
        simp only [List.foldl_cons] <;> rw [h1, hm]
      · exact List.mem_cons_self _ _
      · exact List.mem_cons_of_mem _ (List.mem_cons_self _ _)
    · exact List.mem_cons_of_mem _ (List.mem_cons_of_mem _ h1)

/-- A left fold with max dominates its initial value. -/
lemma le_foldl_max_init (l : List ℕ) (a : ℕ) : a ≤ l.foldl max a := by
  induction l generalizing a with
  | nil => simp
  | cons b l ih =>
    simpa using le_trans (le_max_left a b) (ih (max a b))

/-- A left fold with max dominates every list element. -/
lemma le_foldl_max_mem (l : List ℕ) :
    ∀ a b : ℕ, b ∈ l → b ≤ l.foldl max a := by
  induction l with
  | nil => intro a b hb; cases hb
  | cons c l ih =>
    intro a b hb
    rcases List.mem_cons.mp hb with rfl | hb1
    · exact le_trans (le_max_right a b) (le_foldl_max_init l (max a b))
    · exact ih (max a c) b hb1

/-- A left fold with max is the initial value or a list element. -/
lemma foldl_max_mem (l : List ℕ) : ∀ a : ℕ, l.foldl max a ∈ a :: l := by
  induction l with
  | nil => intro a; simp
  | cons c l ih =>
    intro a
    have h := ih (max a c)
    rcases List.mem_cons.mp h with h1 | h1
    · rcases max_choice a c with hm | hm <;>
        simp only [List.foldl_cons] <;> rw [h1, hm]
      · exact List.mem_cons_self _ _
      · exact List.mem_cons_of_mem _ (List.mem_cons_self _ _)
    · exact List.mem_cons_of_mem _ (List.mem_cons_of_mem _ h1)

/-- The 2D extractor returns none exactly when the match list is empty. -/
lemma bbox_2d_none_iff {F : Type} (actor : ActorState F)
    (actor_ids semantic_labels : List (List ℕ)) :
    bbox_2d_for_actor actor actor_ids semantic_labels = none ↔
      np_where actor_ids actor.id = [] := by
  unfold bbox_2d_for_actor
  cases h : np_where actor_ids actor.id <;> simp

/-- Full characterization of a successful 2D extraction: the reported id
and label, attainment of each box coordinate by a match, and the box
bounding every match. -/
lemma bbox_2d_some_spec {F : Type} (actor : ActorState F)
    (actor_ids semantic_labels : List (List ℕ)) (r : Box2D)
    (hr : bbox_2d_for_actor actor actor_ids semantic_labels = some r) :
    r.actor_id = actor.id ∧
    r.semantic_label = actor.semantic_tags.headD 0 ∧
    (∃ y, (y, r.bbox_2d.1) ∈ np_where actor_ids actor.id) ∧
    (∃ y, (y, r.bbox_2d.2.2.1) ∈ np_where actor_ids actor.id) ∧
    (∃ x, (r.bbox_2d.2.1, x) ∈ np_where actor_ids actor.id) ∧
    (∃ x, (r.bbox_2d.2.2.2, x) ∈ np_where actor_ids actor.id) ∧
    (∀ y x, (y, x) ∈ np_where actor_ids actor.id →
      r.bbox_2d.1 ≤ x ∧ x ≤ r.bbox_2d.2.2.1 ∧
      r.bbox_2d.2.1 ≤ y ∧ y ≤ r.bbox_2d.2.2.2) := by
  unfold bbox_2d_for_actor at hr
  cases h : np_where actor_ids actor.id with
  | nil => rw [h] at hr; cases hr
  | cons c cs =>
    rw [h] at hr
    have hrec := Option.some_injective _ hr
    subst hrec
    refine ⟨rfl, rfl, ?_, ?_, ?_, ?_, ?_⟩
    · have hmem : ((c :: cs).map Prod.snd).foldl min c.2 ∈
          (c :: cs).map Prod.snd := by
        rcases List.mem_cons.mp
            (foldl_min_mem ((c :: cs).map Prod.snd) c.2) with h1 | h1
        · rw [h1]
          exact List.mem_map.mpr ⟨c, List.mem_cons_self _ _, rfl⟩
        · exact h1
      rcases List.mem_map.mp hmem with ⟨p, hp, hps⟩
      refine ⟨p.1, ?_⟩
      have hpe : (p.1, p.2) ∈ c :: cs := by rw [Prod.mk.eta]; exact hp
      exact hps ▸ hpe
    · have hmem : ((c :: cs).map Prod.snd).foldl max c.2 ∈
          (c :: cs).map Prod.snd := by
        rcases List.mem_cons.mp
            (foldl_max_mem ((c :: cs).map Prod.snd) c.2) with h1 | h1
        · rw [h1]
          exact List.mem_map.mpr ⟨c, List.mem_cons_self _ _, rfl⟩
        · exact h1
      rcases List.mem_map.mp hmem with ⟨p, hp, hps⟩
      refine ⟨p.1, ?_⟩
      have hpe : (p.1, p.2) ∈ c :: cs := by rw [Prod.mk.eta]; exact hp
      exact hps ▸ hpe
    · have hmem : ((c :: cs).map Prod.fst).foldl min c.1 ∈
          (c :: cs).map Prod.fst := by
        rcases List.mem_cons.mp
            (foldl_min_mem ((c :: cs).map Prod.fst) c.1) with h1 | h1
        · rw [h1]
          exact List.mem_map.mpr ⟨c, List.mem_cons_self _ _, rfl⟩
        · exact h1
      rcases List.mem_map.mp hmem with ⟨p, hp, hps⟩
      refine ⟨p.2, ?_⟩
      have hpe : (p.1, p.2) ∈ c :: cs := by rw [Prod.mk.eta]; exact hp
      exact hps ▸ hpe
    · have hmem : ((c :: cs).map Prod.fst).foldl max c.1 ∈
          (c :: cs).map Prod.fst := by
        rcases List.mem_cons.mp
            (foldl_max_mem ((c :: cs).map Prod.fst) c.1) with h1 | h1
        · rw [h1]
          exact List.mem_map.mpr ⟨c, List.mem_cons_self _ _, rfl⟩
        · exact h1
      rcases List.mem_map.mp hmem with ⟨p, hp, hps⟩
      refine ⟨p.2, ?_⟩
      have hpe : (p.1, p.2) ∈ c :: cs := by rw [Prod.mk.eta]; exact hp
      exact hps ▸ hpe
    · intro y x hyx
      have hxmem : x ∈ (c :: cs).map Prod.snd :=
        List.mem_map.mpr ⟨(y, x), hyx, rfl⟩
      have hymem : y ∈ (c :: cs).map Prod.fst :=
        List.mem_map.mpr ⟨(y, x), hyx, rfl⟩
      exact ⟨foldl_min_le_mem _ _ _ hxmem, le_foldl_max_mem _ _ _ hxmem,
        foldl_min_le_mem _ _ _ hymem, le_foldl_max_mem _ _ _ hymem⟩

/-- Sample actor over the rationals with id 1 and first semantic tag 5,
used to instantiate the 2D-extractor theorems at concrete inputs. -/
def sampleActorQ : ActorState ℚ :=
  ⟨1, [5], ⟨⟨0, 0, 0⟩, ⟨0, 0, 0⟩, ⟨1, 0, 0, 0, 1, 0, 0, 0, 1⟩⟩,
   ⟨⟨0, 0, 0⟩, ⟨0, 0, 0⟩⟩⟩

/-- C4 amended: the 2D extractor returns none exactly when no grid entry
equals the actor id; otherwise it returns the actor id, the first entry of
the own semantic tag list of the actor as the label, and the tight inclusive
box: each of the four coordinates is attained by a matching pixel and the
box bounds every matching pixel. -/
theorem C4_extractor_none_iff_and_tight_box {F : Type} (actor : ActorState F)
    (actor_ids semantic_labels : List (List ℕ)) :
    (bbox_2d_for_actor actor actor_ids semantic_labels = none ↔
      ∀ y x : ℕ, ¬ ∃ row : List ℕ,
        actor_ids[y]? = some row ∧ row[x]? = some actor.id) ∧
    (∀ r : Box2D, bbox_2d_for_actor actor actor_ids semantic_labels = some r →
      r.actor_id = actor.id ∧
      r.semantic_label = actor.semantic_tags.headD 0 ∧
      (∃ (y : ℕ) (row : List ℕ), actor_ids[y]? = some row ∧
        row[r.bbox_2d.1]? = some actor.id) ∧
      (∃ (y : ℕ) (row : List ℕ), actor_ids[y]? = some row ∧
        row[r.bbox_2d.2.2.1]? = some actor.id) ∧
      (∃ (x : ℕ) (row : List ℕ), actor_ids[r.bbox_2d.2.1]? = some row ∧
        row[x]? = some actor.id) ∧
      (∃ (x : ℕ) (row : List ℕ), actor_ids[r.bbox_2d.2.2.2]? = some row ∧
        row[x]? = some actor.id) ∧
      (∀ (y x : ℕ) (row : List ℕ),
        actor_ids[y]? = some row → row[x]? = some actor.id →
        r.bbox_2d.1 ≤ x ∧ x ≤ r.bbox_2d.2.2.1 ∧
        r.bbox_2d.2.1 ≤ y ∧ y ≤ r.bbox_2d.2.2.2)) := by
  constructor
  · rw [bbox_2d_none_iff, List.eq_nil_iff_forall_not_mem]
    constructor
    · rintro hemp y x ⟨row, h1, h2⟩
      exact hemp (y, x) (mem_np_where.mpr ⟨row, h1, h2⟩)
    · rintro hno ⟨y, x⟩ hp
      rcases mem_np_where.mp hp with ⟨row, h1, h2⟩
      exact hno y x ⟨row, h1, h2⟩
  · intro r hr
    obtain ⟨h1, h2, ⟨y1, hy1⟩, ⟨y2, hy2⟩, ⟨x1, hx1⟩, ⟨x2, hx2⟩, hbound⟩ :=
      bbox_2d_some_spec actor actor_ids semantic_labels r hr
    refine ⟨h1, h2, ?_, ?_, ?_, ?_, ?_⟩
    · rcases mem_np_where.mp hy1 with ⟨row, ha, hb⟩
      exact ⟨y1, row, ha, hb⟩
    · rcases mem_np_where.mp hy2 with ⟨row, ha, hb⟩
      exact ⟨y2, row, ha, hb⟩
    · rcases mem_np_where.mp hx1 with ⟨row, ha, hb⟩
      exact ⟨x1, row, ha, hb⟩
    · rcases mem_np_where.mp hx2 with ⟨row, ha, hb⟩
      exact ⟨x2, row, ha, hb⟩
    · intro y x row ha hb
      exact hbound y x (mem_np_where.mpr ⟨row, ha, hb⟩)

/-- Witness for C4 on a 2x2 grid where the actor id 1 matches at (0, 1)
and (1, 0): the extractor returns the box (0, 0, 1, 1) with the first
actor tag as the label, and the match at row 0, column 1 lies inside
the box. -/
theorem C4_witness :
    bbox_2d_for_actor sampleActorQ [[0, 1], [1, 0]] [[7, 7], [7, 7]] =
      some ⟨1, 5, (0, 0, 1, 1)⟩ ∧
    (⟨1, 5, (0, 0, 1, 1)⟩ : Box2D).semantic_label =
      sampleActorQ.semantic_tags.headD 0 ∧
    ((0 : ℕ) ≤ 1 ∧ (1 : ℕ) ≤ 1 ∧ (0 : ℕ) ≤ 0 ∧ (0 : ℕ) ≤ 1) := by
  have h := (C4_extractor_none_iff_and_tight_box sampleActorQ
    [[0, 1], [1, 0]] [[7, 7], [7, 7]]).2 ⟨1, 5, (0, 0, 1, 1)⟩ rfl
  exact ⟨rfl, h.2.1, h.2.2.2.2.2.2 0 1 [0, 1] rfl rfl⟩

/-- Counterexample to C4 as stated: on a one-pixel grid whose id entry
matches actor id 1 and whose semantic grid reads 7 at that only matching
pixel, the extractor reports label 5, the first semantic tag of the actor,
not the label 7 read at a matching pixel. -/
theorem C4_counterexample :
    bbox_2d_for_actor sampleActorQ [[1]] [[7]] =
      some ⟨1, 5, (0, 0, 0, 0)⟩ ∧
    np_where [[1]] sampleActorQ.id = [(0, 0)] ∧
    (([[7]] : List (List ℕ)).getD 0 []).getD 0 0 = 7 ∧
    (some (⟨1, 5, (0, 0, 0, 0)⟩ : Box2D)).map Box2D.semantic_label ≠
      some 7 := by
  exact ⟨rfl, rfl, rfl, by decide⟩

/-- C10: whenever the 2D extractor returns a box on an H-row, W-column
grid, the box is well ordered and lies inside the grid: the minima do not
exceed the maxima and the maxima stay within the last column and row. -/
theorem C10_box_within_grid {F : Type} (actor : ActorState F)
    (actor_ids semantic_labels : List (List ℕ)) (H W : ℕ)
    (hH : actor_ids.length = H)
    (hW : ∀ row ∈ actor_ids, row.length = W) (r : Box2D)
    (hr : bbox_2d_for_actor actor actor_ids semantic_labels = some r) :
    0 ≤ r.bbox_2d.1 ∧ r.bbox_2d.1 ≤ r.bbox_2d.2.2.1 ∧
    r.bbox_2d.2.2.1 ≤ W - 1 ∧
    0 ≤ r.bbox_2d.2.1 ∧ r.bbox_2d.2.1 ≤ r.bbox_2d.2.2.2 ∧
    r.bbox_2d.2.2.2 ≤ H - 1 := by
  obtain ⟨-, -, -, ⟨y2, hy2⟩, -, ⟨x2, hx2⟩, hbound⟩ :=
    bbox_2d_some_spec actor actor_ids semantic_labels r hr
  have hb2 := hbound y2 r.bbox_2d.2.2.1 hy2
  have hb3 := hbound r.bbox_2d.2.2.2 x2 hx2
  rcases mem_np_where.mp hy2 with ⟨row2, hrow2, hcell2⟩
  rcases mem_np_where.mp hx2 with ⟨row3, hrow3, hcell3⟩
  have hxW : r.bbox_2d.2.2.1 < W := by
    rcases List.getElem?_eq_some.mp hcell2 with ⟨hlt, -⟩
    have hrmem : row2 ∈ actor_ids := by
      rcases List.getElem?_eq_some.mp hrow2 with ⟨hlt2, heq⟩
      exact heq ▸ List.getElem_mem hlt2
    rw [hW row2 hrmem] at hlt
    exact hlt
  have hyH : r.bbox_2d.2.2.2 < H := by
    rcases List.getElem?_eq_some.mp hrow3 with ⟨hlt, -⟩
    rw [hH] at hlt
    exact hlt
  exact ⟨Nat.zero_le _, hb2.1, by omega, Nat.zero_le _, hb3.2.2.1, by omega⟩

/-- Witness for C10 on the 2x2 grid with matches at (0, 1) and (1, 0):
the returned box (0, 0, 1, 1) satisfies the in-bounds inequalities for
width 2 and height 2. -/
theorem C10_witness :
    ([[0, 1], [1, 0]] : List (List ℕ)).length = 2 ∧
    (∀ row ∈ ([[0, 1], [1, 0]] : List (List ℕ)), row.length = 2) ∧
    bbox_2d_for_actor sampleActorQ [[0, 1], [1, 0]] [[7, 7], [7, 7]] =
      some ⟨1, 5, (0, 0, 1, 1)⟩ ∧
    ((1 : ℕ) ≤ 2 - 1 ∧ (1 : ℕ) ≤ 2 - 1) := by
  refine ⟨rfl, by decide, rfl, ?_⟩
  have h := C10_box_within_grid sampleActorQ [[0, 1], [1, 0]]
    [[7, 7], [7, 7]] 2 2 rfl (by decide) ⟨1, 5, (0, 0, 1, 1)⟩ rfl
  exact ⟨h.2.2.1, h.2.2.2.2.2⟩

/-- Component-wise description of vector subtraction. -/
lemma V3.sub_def {F : Type} [LinearOrderedField F] (a b : V3 F) :
    a - b = ⟨a.x - b.x, a.y - b.y, a.z - b.z⟩ := rfl

/-- Component-wise description of vector addition. -/
lemma V3.add_def {F : Type} [LinearOrderedField F] (a b : V3 F) :
    a + b = ⟨a.x + b.x, a.y + b.y, a.z + b.z⟩ := rfl

/-- Written from the wording of the spec (section 4.5 steps 2 and 3): the
ego-relative center is the inverse transform, in the frame anchored at the
ego transform location plus the local center offset of the ego volume with the
ego orientation, of the analogous world-space anchor of the target. -/
def spec_relative_center {F : Type} [LinearOrderedField F]
    (target ego : ActorState F) : V3 F :=
  Transform.inverse_transform
    ⟨ego.transform.location + ego.bounding_box.location,
     ego.transform.rotation, ego.transform.basis⟩
    (target.transform.location + target.bounding_box.location)

/-- C6: the ego-relative center of the 3D projector output is the inverse
transform of the target anchor in the ego anchor frame, its dimensions are
the target extents doubled (hence non-negative whenever the simulator
supplies non-negative extents) and its relative yaw is the difference
of the world yaw angles converted to radians. -/
theorem C6_center_dims_yaw (actor ego : ActorState ℝ)
    (camera_bp : CameraBlueprint) (camera : Transform ℝ)
    (hx : 0 ≤ actor.bounding_box.extent.x)
    (hy : 0 ≤ actor.bounding_box.extent.y)
    (hz : 0 ≤ actor.bounding_box.extent.z) :
    (bbox_3d_for_actor actor ego camera_bp camera).center =
      spec_relative_center actor ego ∧
    (bbox_3d_for_actor actor ego camera_bp camera).length =
      actor.bounding_box.extent.x * 2 ∧
    (bbox_3d_for_actor actor ego camera_bp camera).width =
      actor.bounding_box.extent.y * 2 ∧
    (bbox_3d_for_actor actor ego camera_bp camera).height =
      actor.bounding_box.extent.z * 2 ∧
    0 ≤ (bbox_3d_for_actor actor ego camera_bp camera).length ∧
    0 ≤ (bbox_3d_for_actor actor ego camera_bp camera).width ∧
    0 ≤ (bbox_3d_for_actor actor ego camera_bp camera).height ∧
    (bbox_3d_for_actor actor ego camera_bp camera).rotation_yaw =
      (actor.transform.rotation.yaw - ego.transform.rotation.yaw) *
        Real.pi / 180 := by
  refine ⟨rfl, rfl, rfl, rfl, ?_, ?_, ?_, rfl⟩
  · exact mul_nonneg hx (by norm_num)
  · exact mul_nonneg hy (by norm_num)
  · exact mul_nonneg hz (by norm_num)

/-- Sample ego actor over the reals at the origin with identity
orientation and unit half-extent. -/
def sampleEgoR : ActorState ℝ :=
  ⟨1, [14], ⟨⟨0, 0, 0⟩, ⟨0, 0, 0⟩, ⟨1, 0, 0, 0, 1, 0, 0, 0, 1⟩⟩,
   ⟨⟨0, 0, 0⟩, ⟨1, 1, 1⟩⟩⟩

/-- Sample target actor over the reals centered 10 units behind the
origin on the x axis, with identity orientation and unit half-extent. -/
def sampleTargetR : ActorState ℝ :=
  ⟨2, [14], ⟨⟨-10, 0, 0⟩, ⟨0, 0, 0⟩, ⟨1, 0, 0, 0, 1, 0, 0, 0, 1⟩⟩,
   ⟨⟨0, 0, 0⟩, ⟨1, 1, 1⟩⟩⟩

/-- Sample camera pose at the origin with identity orientation, facing
the positive x axis. -/
def sampleCamR : Transform ℝ :=
  ⟨⟨0, 0, 0⟩, ⟨0, 0, 0⟩, ⟨1, 0, 0, 0, 1, 0, 0, 0, 1⟩⟩

/-- Sample camera blueprint: 800 by 600 image with a 90 degree field of
view. -/
def sampleBP : CameraBlueprint :=
  ⟨800, 600, 90⟩

/-- Witness for C6 at the sample target and ego: the extent hypotheses
hold and the reported dimensions are the doubled extents. -/
theorem C6_witness :
    (0 : ℝ) ≤ sampleTargetR.bounding_box.extent.x ∧
    (0 : ℝ) ≤ sampleTargetR.bounding_box.extent.y ∧
    (0 : ℝ) ≤ sampleTargetR.bounding_box.extent.z ∧
    (bbox_3d_for_actor sampleTargetR sampleEgoR sampleBP sampleCamR).center =
      spec_relative_center sampleTargetR sampleEgoR ∧
    (bbox_3d_for_actor sampleTargetR sampleEgoR sampleBP sampleCamR).length =
      sampleTargetR.bounding_box.extent.x * 2 ∧
    0 ≤ (bbox_3d_for_actor sampleTargetR sampleEgoR sampleBP
      sampleCamR).length := by
  have hx : (0 : ℝ) ≤ sampleTargetR.bounding_box.extent.x := by
    norm_num [sampleTargetR]
  have hy : (0 : ℝ) ≤ sampleTargetR.bounding_box.extent.y := by
    norm_num [sampleTargetR]
  have hz : (0 : ℝ) ≤ sampleTargetR.bounding_box.extent.z := by
    norm_num [sampleTargetR]
  have h := C6_center_dims_yaw sampleTargetR sampleEgoR sampleBP sampleCamR
    hx hy hz
  exact ⟨hx, hy, hz, h.1, h.2.1, h.2.2.2.2.1⟩

/-- The per-edge rule the loop follows when both endpoints of the edge are
behind the camera: the canvas test still uses the naive normal-intrinsics
projections, and an emitted segment has both endpoints re-projected with
the mirrored intrinsics. -/
def mirrored_edge_segment {F : Type} [LinearOrderedField F] [FloorRing F]
    (K K_b : M33 F) (w2c : M44 F) (verts : Fin 8 → V3 F)
    (image_w image_h : F) (edge : Fin 8 × Fin 8) :
    Option (ℤ × ℤ × ℤ × ℤ) :=
  let p1 := get_image_point (verts edge.1) K w2c
  let p2 := get_image_point (verts edge.2) K w2c
  if !point_in_canvas p1 image_h image_w &&
     !point_in_canvas p2 image_h image_w then
    none
  else
    let q1 := get_image_point (verts edge.1) K_b w2c
    let q2 := get_image_point (verts edge.2) K_b w2c
    some (pyInt q1.1, pyInt q1.2, pyInt q2.1, pyInt q2.2)

/-- When both endpoints of an edge fail the forward-dot-product test, the
loop body reduces to the mirrored per-edge rule. -/
lemma edge_segment_all_behind {F : Type} [LinearOrderedField F]
    [FloorRing F] (K K_b : M33 F) (w2c : M44 F) (fwd loc : V3 F)
    (verts : Fin 8 → V3 F) (w h : F) (e : Fin 8 × Fin 8)
    (h1 : ¬ fwd.dot (verts e.1 - loc) > 0)
    (h2 : ¬ fwd.dot (verts e.2 - loc) > 0) :
    edge_segment K K_b w2c fwd loc verts w h e =
      mirrored_edge_segment K K_b w2c verts w h e := by
  dsimp only [edge_segment, mirrored_edge_segment]
  simp [h1, h2]

/-- All eight corner vertices of the sample target are behind the sample
camera: each forward-dot product is negative. -/
lemma sample_all_behind :
    ∀ i : Fin 8,
      ¬ sampleCamR.get_forward_vector.dot
          (sampleTargetR.bounding_box.get_world_vertices
            sampleTargetR.transform i - sampleCamR.location) > 0 := by
  intro i
  fin_cases i <;>
    norm_num [sampleCamR, sampleTargetR, Transform.get_forward_vector,
      BBox.get_world_vertices, BBox.local_vertex, Transform.transform_point,
      M33.mulV3, V3.dot, V3.sub_def, V3.add_def]

/-- C5 amended: when every corner vertex of the target volume fails the
forward-dot-product test, the 3D projector still returns the specified
center, dimensions and relative yaw, and its edge list is the mirrored
per-edge rule mapped over the edge topology: an edge is discarded only if
both naive projections miss the canvas, and surviving edges are emitted
with both endpoints re-projected through the mirrored intrinsics, so the
list need not be empty. -/
theorem C5_all_behind_amended (actor ego : ActorState ℝ)
    (camera_bp : CameraBlueprint) (camera : Transform ℝ)
    (hall : ∀ i : Fin 8,
      ¬ camera.get_forward_vector.dot
          (actor.bounding_box.get_world_vertices actor.transform i -
            camera.location) > 0) :
    (bbox_3d_for_actor actor ego camera_bp camera).projection =
      EDGES.filterMap
        (mirrored_edge_segment
          (build_projection_matrix (camera_bp.image_size_x : ℝ)
            (camera_bp.image_size_y : ℝ) camera_bp.fov false)
          (build_projection_matrix (camera_bp.image_size_x : ℝ)
            (camera_bp.image_size_y : ℝ) camera_bp.fov true)
          camera.get_inverse_matrix
          (actor.bounding_box.get_world_vertices actor.transform)
          (camera_bp.image_size_x : ℝ) (camera_bp.image_size_y : ℝ)) ∧
    (bbox_3d_for_actor actor ego camera_bp camera).center =
      spec_relative_center actor ego ∧
    (bbox_3d_for_actor actor ego camera_bp camera).length =
      actor.bounding_box.extent.x * 2 ∧
    (bbox_3d_for_actor actor ego camera_bp camera).width =
      actor.bounding_box.extent.y * 2 ∧
    (bbox_3d_for_actor actor ego camera_bp camera).height =
      actor.bounding_box.extent.z * 2 ∧
    (bbox_3d_for_actor actor ego camera_bp camera).rotation_yaw =
      (actor.transform.rotation.yaw - ego.transform.rotation.yaw) *
        Real.pi / 180 := by
  refine ⟨?_, rfl, rfl, rfl, rfl, rfl⟩
  dsimp only [bbox_3d_for_actor]
  exact List.filterMap_congr
    (fun e _ => edge_segment_all_behind _ _ _ _ _ _ _ _ e
      (hall e.1) (hall e.2))

/-- Witness for C5 at the sample scene: every vertex is behind the camera
and the projection equals the mirrored per-edge rule over the topology. -/
theorem C5_witness :
    (∀ i : Fin 8,
      ¬ sampleCamR.get_forward_vector.dot
          (sampleTargetR.bounding_box.get_world_vertices
            sampleTargetR.transform i - sampleCamR.location) > 0) ∧
    (bbox_3d_for_actor sampleTargetR sampleEgoR sampleBP
        sampleCamR).projection =
      EDGES.filterMap
        (mirrored_edge_segment
          (build_projection_matrix (sampleBP.image_size_x : ℝ)
            (sampleBP.image_size_y : ℝ) sampleBP.fov false)
          (build_projection_matrix (sampleBP.image_size_x : ℝ)
            (sampleBP.image_size_y : ℝ) sampleBP.fov true)
          sampleCamR.get_inverse_matrix
          (sampleTargetR.bounding_box.get_world_vertices
            sampleTargetR.transform)
          (sampleBP.image_size_x : ℝ) (sampleBP.image_size_y : ℝ)) :=
  ⟨sample_all_behind,
   (C5_all_behind_amended sampleTargetR sampleEgoR sampleBP sampleCamR
     sample_all_behind).1⟩

/-- The normal sample intrinsics at 800 by 600 with a 90 degree field of
view evaluate to focal length 400. -/
lemma sample_K_eval :
    build_projection_matrix ((800 : ℕ) : ℝ) ((600 : ℕ) : ℝ) 90 false =
      ⟨400, 0, 400, 0, 400, 300, 0, 0, 1⟩ := by
  unfold build_projection_matrix
  rw [show ((90 : ℝ) * Real.pi / 360) = Real.pi / 4 by ring,
    Real.tan_pi_div_four]
  norm_num

/-- The mirrored sample intrinsics at 800 by 600 with a 90 degree field of
view evaluate to focal length -400. -/
lemma sample_K_mirrored_eval :
    build_projection_matrix ((800 : ℕ) : ℝ) ((600 : ℕ) : ℝ) 90 true =
      ⟨-400, 0, 400, 0, -400, 300, 0, 0, 1⟩ := by
  unfold build_projection_matrix
  rw [show ((90 : ℝ) * Real.pi / 360) = Real.pi / 4 by ring,
    Real.tan_pi_div_four]
  norm_num

/-- On the sample scene the first topology edge survives: both naive
projections of its endpoints land inside the canvas even though both
vertices are behind the camera, and the loop emits the mirrored
segment. -/
lemma sample_first_edge_emitted :
    edge_segment (⟨400, 0, 400, 0, 400, 300, 0, 0, 1⟩ : M33 ℝ)
      ⟨-400, 0, 400, 0, -400, 300, 0, 0, 1⟩
      sampleCamR.get_inverse_matrix sampleCamR.get_forward_vector
      sampleCamR.location
      (sampleTargetR.bounding_box.get_world_vertices sampleTargetR.transform)
      ((800 : ℕ) : ℝ) ((600 : ℕ) : ℝ) ((0 : Fin 8), (1 : Fin 8)) =
    some (363, 336, 363, 263) := by
  norm_num [edge_segment, get_image_point, point_in_canvas, pyInt,
    sampleCamR, sampleTargetR, Transform.get_inverse_matrix,
    Transform.get_forward_vector, BBox.get_world_vertices,
    BBox.local_vertex, Transform.transform_point, M33.mulV3, V3.dot,
    V3.sub_def, V3.add_def]

/-- Counterexample to C5 as stated: with the camera at the origin facing
the positive x axis and the target box centered 10 units behind it, every
corner vertex fails the forward-dot-product test, yet the emitted edge
list is not empty: the naive normal-intrinsics projections of the
vertices land inside the canvas, so the loop keeps the edges instead of
discarding them. -/
theorem C5_counterexample :
    (∀ i : Fin 8,
      ¬ sampleCamR.get_forward_vector.dot
          (sampleTargetR.bounding_box.get_world_vertices
            sampleTargetR.transform i - sampleCamR.location) > 0) ∧
    (bbox_3d_for_actor sampleTargetR sampleEgoR sampleBP
        sampleCamR).projection ≠ [] := by
  refine ⟨sample_all_behind, ?_⟩
  dsimp only [bbox_3d_for_actor, sampleBP]
  rw [sample_K_eval, sample_K_mirrored_eval]
  simp only [EDGES, List.filterMap_cons, sample_first_edge_emitted]
  simp
